import Mathlib

/-!
Verification development for the Spotify blob downloader
(`src/internet/spotifyblobdownloader.cpp`).

The pipeline is embedded shallowly: the `ReplyFinished` slot becomes a pure
function from the event's sender, the batch of replies and an environment of
fallible external operations (temp-dir creation, file open, key load,
signature verification, rename) to a trace of filesystem effects plus the
terminal reports delivered.
-/

namespace SpotifyBlob

/-- Byte content of a downloaded file. -/
abbrev Bytes := List Nat

/-- `const char* SpotifyBlobDownloader::kSignatureSuffix = ".sha1";` -/
def kSignatureSuffix : String := ".sha1"

/-- One `QNetworkReply` as the coordinator sees it: the URL path component,
whether the transport reported an error (and its message), whether the reply
is finished, the received bytes, and the progress-related accessors
(`bytesAvailable()` and the parsed `Content-Length` header, absent headers
parsing to `none`). -/
structure Reply where
  urlPath : String
  error : Bool
  errorString : String
  finished : Bool
  data : Bytes
  bytesAvailable : Nat
  contentLength : Option Nat
deriving DecidableEq

/-- Everything after the last `/` (the whole input when no `/` occurs). -/
def lastSectionAux (acc : List Char) : List Char → List Char
  | [] => acc
  | c :: cs => if c = '/' then lastSectionAux [] cs else lastSectionAux (acc ++ [c]) cs

/-- `reply->url().path().section('/', -1, -1)`: the last `/`-separated
section of the URL path (empty sections included, as with
`QString::section`'s default flags), i.e. everything after the last `/`. -/
def lastSection (s : String) : String :=
  (lastSectionAux [] s.data).asString

/-- `QString::endsWith`. -/
def qEndsWith (s suffix : String) : Bool :=
  suffix.data.isSuffixOf s.data

/-- Filesystem / crypto effects performed by one run of `ReplyFinished`. -/
inductive Effect where
  | makeTempDir (dir : String)
  | stageWrite (path : String) (perms : Nat) (data : Bytes)
  | verifyCheck (artifactPath sigPath : String)
  | mkpath (dir : String)
  | move (src dst : String)
  | removeRecursive (dir : String)
deriving DecidableEq

/-- Terminal reports delivered to the user: `ShowError(message)` or the
`Finished()` signal. -/
inductive Report where
  | failure (msg : String)
  | success
deriving DecidableEq

/-- Result of one invocation of `ReplyFinished`: the effect trace, the
reports delivered, whether `ShowError` disconnected and aborted the sibling
replies, and whether the run ended on one of the two report-less `return`
statements in the verification loop. -/
structure RunResult where
  effects : List Effect
  reports : List Report
  siblingsAborted : Bool
  silent : Bool
deriving DecidableEq

/-- Environment of external fallible operations: `Utilities::MakeTempDir`,
`QFile::open(WriteOnly)`, `QCA::PublicKey::fromPEMFile`,
`QFile::open(ReadOnly)`, file contents on disk, `key.verifyMessage`, and
`QFile::rename`. -/
structure Env where
  tempDir : String
  openWriteOk : String → Bool
  keyLoadOk : Bool
  openReadOk : String → Bool
  readFile : String → Bytes
  verify : Bytes → Bytes → Bool
  renameOk : String → String → Bool

/-- Outcome of the staging loop: on success the effect trace and the list of
signature paths collected; on a failed `open(WriteOnly)` the effects so far
and the `ShowError` message. -/
inductive StageOut where
  | ok (effs : List Effect) (sigs : List String)
  | fail (effs : List Effect) (msg : String)
deriving DecidableEq

/-- The staging loop of `ReplyFinished`: for each reply, derive the filename
from the URL path, open `temp_directory + "/" + filename` for writing
(failure shows an error and aborts), record signature paths (full staged
path ending in the signature suffix), set permissions `0x7755` and write the
received bytes. -/
def stageFiles (env : Env) (temp : String) : List Reply → StageOut
  | [] => .ok [] []
  | r :: rs =>
    let filename := lastSection r.urlPath
    let path := temp ++ "/" ++ filename
    if env.openWriteOk path then
      let sigHere := if qEndsWith path kSignatureSuffix then [path] else []
      match stageFiles env temp rs with
      | .ok effs sigs => .ok (.stageWrite path 0x7755 r.data :: effs) (sigHere ++ sigs)
      | .fail effs m => .fail (.stageWrite path 0x7755 r.data :: effs) m
    else
      .fail [] ("Failed to open file for writing: " ++ path)

/-- Qt's `QString::remove(str)` over character lists: repeatedly find the
next occurrence of the pattern at or after the index where the previous
removal happened, and splice it out.  First occurrence search from a given
start index (`QString::indexOf(str, from)`), `none` when absent. -/
def findFromAux (pat s : List Char) : Nat → Nat → Option Nat
  | _, 0 => none
  | i, fuel + 1 =>
    if pat.length + i ≤ s.length then
      if pat.isPrefixOf (s.drop i) then some i
      else findFromAux pat s (i + 1) fuel
    else none

/-- `QString::indexOf(pat, i)`: least occurrence index `≥ i`, if any. -/
def findFrom (pat s : List Char) (i : Nat) : Option Nat :=
  findFromAux pat s i (s.length + 1 - i)

/-- The removal loop of `QString::remove(const QString&)`: each iteration
removes `pat.length` characters at the found index and resumes the search at
that same index. -/
def qremoveAux (pat : List Char) : Nat → List Char → Nat → List Char
  | 0, s, _ => s
  | fuel + 1, s, i =>
    match findFrom pat s i with
    | none => s
    | some j => qremoveAux pat fuel (s.take j ++ s.drop (j + pat.length)) j

/-- `QString::remove(const QString& str)`: no-op on an empty pattern,
otherwise the removal loop (each iteration shortens the string by at least
one character, so `s.length + 1` iterations always suffice). -/
def qremoveL (s pat : List Char) : List Char :=
  if pat.isEmpty then s else qremoveAux pat (s.length + 1) s 0

/-- String-level wrapper for `QString::remove`. -/
def qremoveStr (s pat : String) : String :=
  (qremoveL s.data pat.data).asString

/-- Outcome of the signature-verification loop: success, a failed
`verifyMessage` (with the `ShowError` message), or one of the two silent
`return`s when a staged artifact or signature file cannot be opened for
reading.  Each performed `verifyMessage` call is recorded as a
`verifyCheck` effect. -/
inductive VerifyOut where
  | ok (effs : List Effect)
  | fail (effs : List Effect) (msg : String)
  | silent (effs : List Effect)
deriving DecidableEq

/-- The verification loop of `ReplyFinished`: for each collected signature
path, derive the artifact path by `filename.remove(kSignatureSuffix)`, open
both files for reading (silent `return` on failure), and check
`key.verifyMessage(artifact bytes, signature bytes)`. -/
def verifySigs (env : Env) : List String → VerifyOut
  | [] => .ok []
  | sig :: rest =>
    let filename := qremoveStr sig kSignatureSuffix
    if env.openReadOk filename then
      if env.openReadOk sig then
        if env.verify (env.readFile filename) (env.readFile sig) then
          match verifySigs env rest with
          | .ok effs => .ok (.verifyCheck filename sig :: effs)
          | .fail effs m => .fail (.verifyCheck filename sig :: effs) m
          | .silent effs => .silent (.verifyCheck filename sig :: effs)
        else
          .fail [.verifyCheck filename sig] ("Invalid signature: " ++ filename)
      else .silent []
    else .silent []

/-- Outcome of the install loop: the moves performed, or the moves performed
before a failing `QFile::rename` together with its `ShowError` message. -/
inductive InstallOut where
  | ok (effs : List Effect)
  | fail (effs : List Effect) (msg : String)
deriving DecidableEq

/-- The install loop of `ReplyFinished`: for each reply, skip filenames
ending in the signature suffix, otherwise rename
`temp_directory + "/" + filename` to `path_ + "/" + filename`; a failed
rename shows an error and aborts the loop. -/
def installFiles (env : Env) (temp dest : String) : List Reply → InstallOut
  | [] => .ok []
  | r :: rs =>
    let filename := lastSection r.urlPath
    if qEndsWith filename kSignatureSuffix then
      installFiles env temp dest rs
    else
      let src := temp ++ "/" ++ filename
      let dst := dest ++ "/" ++ filename
      if env.renameOk src dst then
        match installFiles env temp dest rs with
        | .ok effs => .ok (.move src dst :: effs)
        | .fail effs m => .fail (.move src dst :: effs) m
      else
        .fail [] ("Writing file failed: " ++ dst)

/-- A `ShowError(msg)` run outcome: the effects so far, one failure report,
sibling replies disconnected and aborted. -/
def showErrorResult (effs : List Effect) (msg : String) : RunResult :=
  { effects := effs, reports := [.failure msg], siblingsAborted := true, silent := false }

/-- `SpotifyBlobDownloader::ReplyFinished`, shallowly embedded.  `sender` is
the reply whose `finished()` signal fired; `replies` is the `replies_`
batch; `dest` is the `path_` member.  A transport error on the sender shows
the error immediately; otherwise the barrier returns until every reply is
finished; then staging, key load, verification, destination creation,
install and temp-dir removal run in source order. -/
def replyFinished (env : Env) (dest : String) (sender : Reply) (replies : List Reply) :
    RunResult :=
  if sender.error then
    showErrorResult [] sender.errorString
  else if replies.any (fun r => !r.finished) then
    { effects := [], reports := [], siblingsAborted := false, silent := false }
  else
    let temp := env.tempDir
    let mk : List Effect := [.makeTempDir temp]
    match stageFiles env temp replies with
    | .fail effs msg => showErrorResult (mk ++ effs) msg
    | .ok effs sigs =>
      if env.keyLoadOk then
        match verifySigs env sigs with
        | .fail veffs msg => showErrorResult (mk ++ effs ++ veffs) msg
        | .silent veffs =>
          { effects := mk ++ effs ++ veffs, reports := [], siblingsAborted := false,
            silent := true }
        | .ok veffs =>
          match installFiles env temp dest replies with
          | .fail ieffs msg =>
            showErrorResult (mk ++ effs ++ veffs ++ [.mkpath dest] ++ ieffs) msg
          | .ok ieffs =>
            { effects := mk ++ effs ++ veffs ++ [.mkpath dest] ++ ieffs
                ++ [.removeRecursive temp],
              reports := [.success], siblingsAborted := false, silent := false }
      else
        showErrorResult (mk ++ effs) "Failed to load Spotify public key"

/-- `SpotifyBlobDownloader::Start`'s fixed filename list. -/
def resolveFilenames : List String :=
  ["blob", "blob" ++ kSignatureSuffix, "libspotify.so.8"]

/-- A resolved file: download URL and filename (the URL's last segment,
which is also the destination filename). -/
structure FileSpec where
  url : String
  filename : String
deriving DecidableEq

/-- The resolver in `SpotifyBlobDownloader::Start`: one `FileSpec` per fixed
filename, with URL `kBlobDownloadUrl + version_ + "/" + filename`. -/
def resolve (baseUrl version : String) : List FileSpec :=
  resolveFilenames.map (fun fn => ⟨baseUrl ++ version ++ "/" ++ fn, fn⟩)

/-- `SpotifyBlobDownloader::ReplyProgress`: one pass over `replies_`
accumulating `bytesAvailable()` into `progress` and the parsed
`Content-Length` header (0 when absent) into `total`; the dialog is then
shown the pair `(progress, total)`. -/
def replyProgress (replies : List Reply) : Nat × Nat :=
  replies.foldl
    (fun (pt : Nat × Nat) r => (pt.1 + r.bytesAvailable, pt.2 + r.contentLength.getD 0))
    (0, 0)

/-- Is the effect a staging-directory creation? -/
def isMakeTempDirE : Effect → Bool
  | .makeTempDir _ => true
  | _ => false

/-- Is the effect a recursive removal? -/
def isRemoveE : Effect → Bool
  | .removeRecursive _ => true
  | _ => false

/-- Does the effect touch the destination directory (create it or move a
file into it)? -/
def isDestE : Effect → Bool
  | .mkpath _ => true
  | .move _ _ => true
  | _ => false

/-- Is the effect a `verifyMessage` call? -/
def isVerifyE : Effect → Bool
  | .verifyCheck _ _ => true
  | _ => false

/-- Does the trace create a staging directory? -/
def tempCreated (res : RunResult) : Bool :=
  res.effects.any isMakeTempDirE

/-- Does the trace remove the staging directory? -/
def tempRemoved (res : RunResult) : Bool :=
  res.effects.any isRemoveE

/-- Does the trace touch the destination directory (create it or move a
file into it)? -/
def destTouched (res : RunResult) : Bool :=
  res.effects.any isDestE

/-- Does the trace perform any `verifyMessage` call? -/
def verifyAttempted (res : RunResult) : Bool :=
  res.effects.any isVerifyE

/-- The moves in a trace, in order. -/
def movesOf (effs : List Effect) : List (String × String) :=
  effs.filterMap (fun e => match e with | .move s d => some (s, d) | _ => none)

/-- Effects of a staging outcome. -/
def stageEffs : StageOut → List Effect
  | .ok effs _ => effs
  | .fail effs _ => effs

/-- Effects of a verification outcome. -/
def verifyEffs : VerifyOut → List Effect
  | .ok effs => effs
  | .fail effs _ => effs
  | .silent effs => effs

/-- Effects of an install outcome. -/
def installEffs : InstallOut → List Effect
  | .ok effs => effs
  | .fail effs _ => effs

theorem stageEffs_shape (env : Env) (temp : String) :
    ∀ rs : List Reply, ∀ e ∈ stageEffs (stageFiles env temp rs),
      ∃ p d, e = Effect.stageWrite p 0x7755 d := by
  intro rs
  induction rs with
  | nil => intro e he; simp [stageFiles, stageEffs] at he
  | cons r rs ih =>
    intro e he
    simp only [stageFiles] at he
    by_cases h : env.openWriteOk (temp ++ "/" ++ lastSection r.urlPath)
    · rw [if_pos h] at he
      rcases hst : stageFiles env temp rs with ⟨effs, sigs⟩ | ⟨effs, m⟩ <;>
        rw [hst] at he <;> simp only [stageEffs, List.mem_cons] at he <;>
        rcases he with he | he
      · exact ⟨_, _, he⟩
      · exact ih e (by rw [hst]; exact he)
      · exact ⟨_, _, he⟩
      · exact ih e (by rw [hst]; exact he)
    · rw [if_neg h] at he
      simp [stageEffs] at he

theorem verifyEffs_shape (env : Env) :
    ∀ sigs : List String, ∀ e ∈ verifyEffs (verifySigs env sigs),
      ∃ a s, e = Effect.verifyCheck a s := by
  intro sigs
  induction sigs with
  | nil => intro e he; simp [verifySigs, verifyEffs] at he
  | cons sig rest ih =>
    intro e he
    simp only [verifySigs] at he
    by_cases h1 : env.openReadOk (qremoveStr sig kSignatureSuffix)
    · rw [if_pos h1] at he
      by_cases h2 : env.openReadOk sig
      · rw [if_pos h2] at he
        by_cases h3 :
            env.verify (env.readFile (qremoveStr sig kSignatureSuffix)) (env.readFile sig)
        · rw [if_pos h3] at he
          rcases hv : verifySigs env rest with effs | ⟨effs, m⟩ | effs <;>
            rw [hv] at he <;> simp only [verifyEffs, List.mem_cons] at he <;>
            rcases he with he | he
          · exact ⟨_, _, he⟩
          · exact ih e (by rw [hv]; exact he)
          · exact ⟨_, _, he⟩
          · exact ih e (by rw [hv]; exact he)
          · exact ⟨_, _, he⟩
          · exact ih e (by rw [hv]; exact he)
        · rw [if_neg h3] at he
          simp only [verifyEffs, List.mem_cons] at he
          rcases he with he | he
          · exact ⟨_, _, he⟩
          · simp at he
      · rw [if_neg h2] at he
        simp [verifyEffs] at he
    · rw [if_neg h1] at he
      simp [verifyEffs] at he

theorem installEffs_shape (env : Env) (temp dest : String) :
    ∀ rs : List Reply, ∀ e ∈ installEffs (installFiles env temp dest rs),
      ∃ r ∈ rs, qEndsWith (lastSection r.urlPath) kSignatureSuffix = false ∧
        e = Effect.move (temp ++ "/" ++ lastSection r.urlPath)
          (dest ++ "/" ++ lastSection r.urlPath) := by
  intro rs
  induction rs with
  | nil => intro e he; simp [installFiles, installEffs] at he
  | cons r rs ih =>
    intro e he
    simp only [installFiles] at he
    by_cases h1 : qEndsWith (lastSection r.urlPath) kSignatureSuffix
    · rw [if_pos h1] at he
      obtain ⟨x, hx, hsig, hrest⟩ := ih e he
      exact ⟨x, List.mem_cons_of_mem _ hx, hsig, hrest⟩
    · rw [if_neg h1] at he
      by_cases h2 : env.renameOk (temp ++ "/" ++ lastSection r.urlPath)
          (dest ++ "/" ++ lastSection r.urlPath)
      · rw [if_pos h2] at he
        rcases hi : installFiles env temp dest rs with effs | ⟨effs, m⟩ <;>
          rw [hi] at he <;> simp only [installEffs, List.mem_cons] at he <;>
          rcases he with he | he
        · exact ⟨r, List.mem_cons_self r rs, Bool.eq_false_iff.mpr h1, he⟩
        · obtain ⟨x, hx, hsig, hrest⟩ := ih e (by rw [hi]; exact he)
          exact ⟨x, List.mem_cons_of_mem _ hx, hsig, hrest⟩
        · exact ⟨r, List.mem_cons_self r rs, Bool.eq_false_iff.mpr h1, he⟩
        · obtain ⟨x, hx, hsig, hrest⟩ := ih e (by rw [hi]; exact he)
          exact ⟨x, List.mem_cons_of_mem _ hx, hsig, hrest⟩
      · rw [if_neg h2] at he
        simp [installEffs] at he

theorem stage_effs_flags (env : Env) (temp : String) (rs : List Reply) :
    (stageEffs (stageFiles env temp rs)).any isRemoveE = false ∧
    (stageEffs (stageFiles env temp rs)).any isDestE = false ∧
    (stageEffs (stageFiles env temp rs)).any isVerifyE = false := by
  refine ⟨?_, ?_, ?_⟩ <;> rw [List.any_eq_false] <;> intro e he <;>
    obtain ⟨p, d, rfl⟩ := stageEffs_shape env temp rs e he <;>
    simp [isRemoveE, isDestE, isVerifyE]

theorem verify_effs_flags (env : Env) (sigs : List String) :
    (verifyEffs (verifySigs env sigs)).any isRemoveE = false ∧
    (verifyEffs (verifySigs env sigs)).any isDestE = false := by
  refine ⟨?_, ?_⟩ <;> rw [List.any_eq_false] <;> intro e he <;>
    obtain ⟨a, s, rfl⟩ := verifyEffs_shape env sigs e he <;>
    simp [isRemoveE, isDestE]

theorem install_effs_no_remove (env : Env) (temp dest : String) (rs : List Reply) :
    (installEffs (installFiles env temp dest rs)).any isRemoveE = false := by
  rw [List.any_eq_false]
  intro e he
  obtain ⟨r, _, _, rfl⟩ := installEffs_shape env temp dest rs e he
  simp [isRemoveE]

theorem replyFinished_error_eq (env : Env) (dest : String) (sender : Reply)
    (replies : List Reply) (h : sender.error = true) :
    replyFinished env dest sender replies = showErrorResult [] sender.errorString := by
  simp [replyFinished, h]

theorem replyFinished_waiting_eq (env : Env) (dest : String) (sender : Reply)
    (replies : List Reply) (h1 : sender.error = false)
    (h2 : replies.any (fun r => !r.finished) = true) :
    replyFinished env dest sender replies =
      { effects := [], reports := [], siblingsAborted := false, silent := false } := by
  simp [replyFinished, h1, h2]

theorem replyFinished_stageFail_eq (env : Env) (dest : String) (sender : Reply)
    (replies : List Reply) (effs : List Effect) (msg : String) (h1 : sender.error = false)
    (h2 : replies.any (fun r => !r.finished) = false)
    (h3 : stageFiles env env.tempDir replies = .fail effs msg) :
    replyFinished env dest sender replies =
      showErrorResult (Effect.makeTempDir env.tempDir :: effs) msg := by
  simp [replyFinished, h1, h2, h3]

theorem replyFinished_keyFail_eq (env : Env) (dest : String) (sender : Reply)
    (replies : List Reply) (effs : List Effect) (sigs : List String)
    (h1 : sender.error = false) (h2 : replies.any (fun r => !r.finished) = false)
    (h3 : stageFiles env env.tempDir replies = .ok effs sigs)
    (h4 : env.keyLoadOk = false) :
    replyFinished env dest sender replies =
      showErrorResult (Effect.makeTempDir env.tempDir :: effs)
        "Failed to load Spotify public key" := by
  simp [replyFinished, h1, h2, h3, h4]

theorem replyFinished_verifyFail_eq (env : Env) (dest : String) (sender : Reply)
    (replies : List Reply) (effs veffs : List Effect) (sigs : List String) (msg : String)
    (h1 : sender.error = false) (h2 : replies.any (fun r => !r.finished) = false)
    (h3 : stageFiles env env.tempDir replies = .ok effs sigs)
    (h4 : env.keyLoadOk = true) (h5 : verifySigs env sigs = .fail veffs msg) :
    replyFinished env dest sender replies =
      showErrorResult (Effect.makeTempDir env.tempDir :: (effs ++ veffs)) msg := by
  simp [replyFinished, h1, h2, h3, h4, h5]

theorem replyFinished_verifySilent_eq (env : Env) (dest : String) (sender : Reply)
    (replies : List Reply) (effs veffs : List Effect) (sigs : List String)
    (h1 : sender.error = false) (h2 : replies.any (fun r => !r.finished) = false)
    (h3 : stageFiles env env.tempDir replies = .ok effs sigs)
    (h4 : env.keyLoadOk = true) (h5 : verifySigs env sigs = .silent veffs) :
    replyFinished env dest sender replies =
      { effects := Effect.makeTempDir env.tempDir :: (effs ++ veffs), reports := [],
        siblingsAborted := false, silent := true } := by
  simp [replyFinished, h1, h2, h3, h4, h5]

theorem replyFinished_installFail_eq (env : Env) (dest : String) (sender : Reply)
    (replies : List Reply) (effs veffs ieffs : List Effect) (sigs : List String)
    (msg : String)
    (h1 : sender.error = false) (h2 : replies.any (fun r => !r.finished) = false)
    (h3 : stageFiles env env.tempDir replies = .ok effs sigs)
    (h4 : env.keyLoadOk = true) (h5 : verifySigs env sigs = .ok veffs)
    (h6 : installFiles env env.tempDir dest replies = .fail ieffs msg) :
    replyFinished env dest sender replies =
      showErrorResult
        (Effect.makeTempDir env.tempDir ::
          (effs ++ veffs ++ Effect.mkpath dest :: ieffs)) msg := by
  simp [replyFinished, h1, h2, h3, h4, h5, h6]

theorem replyFinished_success_eq (env : Env) (dest : String) (sender : Reply)
    (replies : List Reply) (effs veffs ieffs : List Effect) (sigs : List String)
    (h1 : sender.error = false) (h2 : replies.any (fun r => !r.finished) = false)
    (h3 : stageFiles env env.tempDir replies = .ok effs sigs)
    (h4 : env.keyLoadOk = true) (h5 : verifySigs env sigs = .ok veffs)
    (h6 : installFiles env env.tempDir dest replies = .ok ieffs) :
    replyFinished env dest sender replies =
      { effects := Effect.makeTempDir env.tempDir ::
          (effs ++ veffs ++ Effect.mkpath dest :: (ieffs ++ [Effect.removeRecursive env.tempDir])),
        reports := [.success], siblingsAborted := false, silent := false } := by
  simp [replyFinished, h1, h2, h3, h4, h5, h6]

/-- A benign environment used to instantiate claim theorems concretely. -/
def wEnvGood : Env :=
  { tempDir := "T", openWriteOk := fun _ => true, keyLoadOk := true,
    openReadOk := fun _ => true, readFile := fun _ => [1], verify := fun _ _ => true,
    renameOk := fun _ _ => true }

/-- The benign environment, but with the embedded public key failing to load. -/
def wEnvKeyFail : Env := { wEnvGood with keyLoadOk := false }

/-- The benign environment, but with every signature failing verification. -/
def wEnvBadSig : Env := { wEnvGood with verify := fun _ _ => false }

/-- A finished, error-free reply for the primary artifact. -/
def wBlobReply : Reply :=
  { urlPath := "/spotify/0.9/blob", error := false, errorString := "", finished := true,
    data := [1, 2], bytesAvailable := 2, contentLength := some 2 }

/-- A finished, error-free reply for the signature file. -/
def wSigReply : Reply :=
  { urlPath := "/spotify/0.9/blob.sha1", error := false, errorString := "", finished := true,
    data := [9], bytesAvailable := 1, contentLength := none }

/-- A finished, error-free reply for the unsigned payload. -/
def wLibReply : Reply :=
  { urlPath := "/spotify/0.9/libspotify.so.8", error := false, errorString := "",
    finished := true, data := [3], bytesAvailable := 1, contentLength := some 1 }

/-- A reply that finished with a transport error. -/
def wErrReply : Reply :=
  { urlPath := "/spotify/0.9/blob", error := true, errorString := "connection refused",
    finished := true, data := [], bytesAvailable := 0, contentLength := none }

/-- The full three-file batch. -/
def wBatch : List Reply := [wBlobReply, wSigReply, wLibReply]

/-- Claim C1: staging/verification/install begins only once every reply in
the batch is finished, and a transport error on the event's sender
immediately produces a single failure report and aborts the sibling replies,
performing no staging work at all (no waiting on the remaining tasks). -/
theorem C1_barrier_and_immediate_failure (env : Env) (dest : String) (sender : Reply)
    (replies : List Reply) :
    (sender.error = true →
      (replyFinished env dest sender replies).reports
        = [Report.failure sender.errorString] ∧
      (replyFinished env dest sender replies).siblingsAborted = true ∧
      (replyFinished env dest sender replies).effects = []) ∧
    (tempCreated (replyFinished env dest sender replies) = true →
      sender.error = false ∧ ∀ r ∈ replies, r.finished = true) := by
  constructor
  · intro herr
    rw [replyFinished_error_eq env dest sender replies herr]
    exact ⟨rfl, rfl, rfl⟩
  · intro hstart
    by_cases herr : sender.error
    · rw [replyFinished_error_eq env dest sender replies herr] at hstart
      simp [tempCreated, showErrorResult] at hstart
    · rw [Bool.not_eq_true] at herr
      by_cases hany : replies.any (fun r => !r.finished)
      · rw [replyFinished_waiting_eq env dest sender replies herr hany] at hstart
        simp [tempCreated] at hstart
      · rw [Bool.not_eq_true] at hany
        refine ⟨herr, ?_⟩
        intro r hr
        by_contra hf
        rw [List.any_eq_false] at hany
        exact hany r hr (by simp [Bool.eq_false_iff.mpr hf])

/-- Witness for C1: a concrete transport-error run and a concrete
barrier-fired run. -/
theorem C1_witness :
    (wErrReply.error = true ∧
      (replyFinished wEnvGood "dest" wErrReply wBatch).reports
        = [Report.failure "connection refused"] ∧
      (replyFinished wEnvGood "dest" wErrReply wBatch).siblingsAborted = true ∧
      (replyFinished wEnvGood "dest" wErrReply wBatch).effects = []) ∧
    (tempCreated (replyFinished wEnvGood "dest" wBlobReply wBatch) = true ∧
      wBlobReply.error = false ∧ ∀ r ∈ wBatch, r.finished = true) := by
  constructor
  · have h := (C1_barrier_and_immediate_failure wEnvGood "dest" wErrReply wBatch).1 rfl
    exact ⟨rfl, h.1, h.2.1, h.2.2⟩
  · have h := (C1_barrier_and_immediate_failure wEnvGood "dest" wBlobReply wBatch).2
      (by decide)
    exact ⟨by decide, h.1, h.2⟩

/-- Claim C2, counterexample: when the embedded key fails to load, the run
creates the staging directory and ends in a Failure report, but the staging
directory is never removed — refuting the cleanup-on-every-terminal-state
claim. -/
theorem C2_counterexample :
    tempCreated (replyFinished wEnvKeyFail "dest" wBlobReply [wBlobReply]) = true ∧
    (replyFinished wEnvKeyFail "dest" wBlobReply [wBlobReply]).reports
      = [Report.failure "Failed to load Spotify public key"] ∧
    tempRemoved (replyFinished wEnvKeyFail "dest" wBlobReply [wBlobReply]) = false := by
  exact ⟨by decide, by decide, by decide⟩

/-- Claim C2, amended: the staging directory is removed before the terminal
state exactly on the success path; every failing or silent run leaves it
behind. -/
theorem C2_amended_cleanup_only_on_success (env : Env) (dest : String) (sender : Reply)
    (replies : List Reply) :
    tempRemoved (replyFinished env dest sender replies) = true ↔
      (replyFinished env dest sender replies).reports = [Report.success] := by
  by_cases herr : sender.error
  · rw [replyFinished_error_eq env dest sender replies herr]
    simp [tempRemoved, showErrorResult]
  · rw [Bool.not_eq_true] at herr
    by_cases hany : replies.any (fun r => !r.finished)
    · rw [replyFinished_waiting_eq env dest sender replies herr hany]
      simp [tempRemoved]
    · rw [Bool.not_eq_true] at hany
      have hsf := stage_effs_flags env env.tempDir replies
      rcases h3 : stageFiles env env.tempDir replies with ⟨effs, sigs⟩ | ⟨effs, msg⟩
      · rw [h3] at hsf; simp only [stageEffs] at hsf
        by_cases hkey : env.keyLoadOk
        · have hvf := verify_effs_flags env sigs
          rcases h5 : verifySigs env sigs with veffs | ⟨veffs, msg⟩ | veffs
          · rw [h5] at hvf; simp only [verifyEffs] at hvf
            rcases h6 : installFiles env env.tempDir dest replies with ieffs | ⟨ieffs, msg⟩
            · rw [replyFinished_success_eq env dest sender replies effs veffs ieffs sigs
                herr hany h3 hkey h5 h6]
              simp [tempRemoved, isRemoveE, List.any_append]
            · have hif := install_effs_no_remove env env.tempDir dest replies
              rw [h6] at hif; simp only [installEffs] at hif
              rw [replyFinished_installFail_eq env dest sender replies effs veffs ieffs
                sigs msg herr hany h3 hkey h5 h6]
              simp [tempRemoved, showErrorResult, isRemoveE, List.any_append,
                hsf.1, hvf.1, hif]
          · rw [h5] at hvf; simp only [verifyEffs] at hvf
            rw [replyFinished_verifyFail_eq env dest sender replies effs veffs sigs msg
              herr hany h3 hkey h5]
            simp [tempRemoved, showErrorResult, isRemoveE, List.any_append, hsf.1, hvf.1]
          · rw [h5] at hvf; simp only [verifyEffs] at hvf
            rw [replyFinished_verifySilent_eq env dest sender replies effs veffs sigs
              herr hany h3 hkey h5]
            simp [tempRemoved, isRemoveE, List.any_append, hsf.1, hvf.1]
        · rw [Bool.not_eq_true] at hkey
          rw [replyFinished_keyFail_eq env dest sender replies effs sigs herr hany h3 hkey]
          simp [tempRemoved, showErrorResult, isRemoveE, hsf.1]
      · rw [replyFinished_stageFail_eq env dest sender replies effs msg herr hany h3]
        rw [h3] at hsf; simp only [stageEffs] at hsf
        simp [tempRemoved, showErrorResult, isRemoveE, hsf.1]

/-- Claim C3: when a staged signature fails verification, the run delivers a
single failure report and neither creates the destination directory nor
moves any file into it. -/
theorem C3_verification_failure_leaves_destination (env : Env) (dest : String)
    (sender : Reply) (replies : List Reply) (effs veffs : List Effect)
    (sigs : List String) (msg : String)
    (h1 : sender.error = false) (h2 : replies.any (fun r => !r.finished) = false)
    (h3 : stageFiles env env.tempDir replies = .ok effs sigs)
    (h4 : env.keyLoadOk = true)
    (h5 : verifySigs env sigs = .fail veffs msg) :
    (replyFinished env dest sender replies).reports = [Report.failure msg] ∧
    destTouched (replyFinished env dest sender replies) = false := by
  rw [replyFinished_verifyFail_eq env dest sender replies effs veffs sigs msg h1 h2 h3 h4 h5]
  have hsf := stage_effs_flags env env.tempDir replies
  rw [h3] at hsf; simp only [stageEffs] at hsf
  have hvf := verify_effs_flags env sigs
  rw [h5] at hvf; simp only [verifyEffs] at hvf
  exact ⟨rfl,
    by simp [destTouched, showErrorResult, isDestE, List.any_append, hsf.2.1, hvf.2]⟩

/-- Witness for C3: a concrete batch whose signature fails verification. -/
theorem C3_witness :
    (stageFiles wEnvBadSig wEnvBadSig.tempDir [wBlobReply, wSigReply]
        = .ok [Effect.stageWrite "T/blob" 0x7755 [1, 2],
               Effect.stageWrite "T/blob.sha1" 0x7755 [9]] ["T/blob.sha1"] ∧
      verifySigs wEnvBadSig ["T/blob.sha1"]
        = .fail [Effect.verifyCheck "T/blob" "T/blob.sha1"]
            "Invalid signature: T/blob") ∧
    ((replyFinished wEnvBadSig "dest" wBlobReply [wBlobReply, wSigReply]).reports
        = [Report.failure "Invalid signature: T/blob"] ∧
      destTouched (replyFinished wEnvBadSig "dest" wBlobReply [wBlobReply, wSigReply])
        = false) := by
  refine ⟨⟨by decide, by decide⟩, ?_⟩
  exact C3_verification_failure_leaves_destination wEnvBadSig "dest" wBlobReply
    [wBlobReply, wSigReply]
    [Effect.stageWrite "T/blob" 0x7755 [1, 2], Effect.stageWrite "T/blob.sha1" 0x7755 [9]]
    [Effect.verifyCheck "T/blob" "T/blob.sha1"] ["T/blob.sha1"]
    "Invalid signature: T/blob" (by decide) (by decide) (by decide) (by decide)
    (by decide)

/-- Claim C4: when the embedded public key fails to load, the run reports
exactly one failure, performs no signature check at all, and neither creates
the destination directory nor moves any file into it — regardless of the
verification oracle. -/
theorem C4_key_load_failure_no_bypass (env : Env) (dest : String) (sender : Reply)
    (replies : List Reply) (effs : List Effect) (sigs : List String)
    (h1 : sender.error = false) (h2 : replies.any (fun r => !r.finished) = false)
    (h3 : stageFiles env env.tempDir replies = .ok effs sigs)
    (h4 : env.keyLoadOk = false) :
    (replyFinished env dest sender replies).reports
      = [Report.failure "Failed to load Spotify public key"] ∧
    destTouched (replyFinished env dest sender replies) = false ∧
    verifyAttempted (replyFinished env dest sender replies) = false := by
  rw [replyFinished_keyFail_eq env dest sender replies effs sigs h1 h2 h3 h4]
  have hsf := stage_effs_flags env env.tempDir replies
  rw [h3] at hsf; simp only [stageEffs] at hsf
  refine ⟨rfl, ?_, ?_⟩
  · simp [destTouched, showErrorResult, isDestE, hsf.2.1]
  · simp [verifyAttempted, showErrorResult, isVerifyE, hsf.2.2]

/-- Witness for C4: a concrete run with a key-load failure and an otherwise
benign environment whose verification oracle would accept everything. -/
theorem C4_witness :
    (wBlobReply.error = false ∧
      [wBlobReply].any (fun r => !r.finished) = false ∧
      stageFiles wEnvKeyFail wEnvKeyFail.tempDir [wBlobReply]
        = .ok [Effect.stageWrite "T/blob" 0x7755 [1, 2]] [] ∧
      wEnvKeyFail.keyLoadOk = false) ∧
    ((replyFinished wEnvKeyFail "dest" wBlobReply [wBlobReply]).reports
        = [Report.failure "Failed to load Spotify public key"] ∧
      destTouched (replyFinished wEnvKeyFail "dest" wBlobReply [wBlobReply]) = false ∧
      verifyAttempted (replyFinished wEnvKeyFail "dest" wBlobReply [wBlobReply])
        = false) := by
  refine ⟨⟨by decide, by decide, by decide, by decide⟩, ?_⟩
  exact C4_key_load_failure_no_bypass wEnvKeyFail "dest" wBlobReply [wBlobReply]
    [Effect.stageWrite "T/blob" 0x7755 [1, 2]] []
    (by decide) (by decide) (by decide) (by decide)

/-- The benign environment, but the staged artifact `T/blob` cannot be
opened for reading during verification. -/
def wEnvNoRead : Env := { wEnvGood with openReadOk := fun p => !(p == "T/blob") }

/-- Claim C5, counterexample: with every reply finished and error-free, a
failure to open the staged artifact for reading terminates the run with zero
reports, refuting exactly-one-terminal-report for this failure path. -/
theorem C5_counterexample :
    wSigReply.error = false ∧
    [wSigReply].any (fun r => !r.finished) = false ∧
    (replyFinished wEnvNoRead "dest" wSigReply [wSigReply]).reports = [] ∧
    (replyFinished wEnvNoRead "dest" wSigReply [wSigReply]).silent = true := by
  exact ⟨by decide, by decide, by decide, by decide⟩

/-- Claim C5, amended: every run delivers at most one terminal report, and
zero reports occur exactly when the barrier has not fired yet (error-free
sender, some sibling unfinished) or the run ends on one of the two silent
verification `return`s (staged artifact or signature file unreadable). -/
theorem C5_amended_at_most_one_report (env : Env) (dest : String) (sender : Reply)
    (replies : List Reply) :
    (replyFinished env dest sender replies).reports.length ≤ 1 ∧
    ((replyFinished env dest sender replies).reports = [] ↔
      (sender.error = false ∧
        (replies.any (fun r => !r.finished) = true ∨
          (replyFinished env dest sender replies).silent = true))) := by
  by_cases herr : sender.error
  · rw [replyFinished_error_eq env dest sender replies herr]
    simp [showErrorResult, herr]
  · rw [Bool.not_eq_true] at herr
    by_cases hany : replies.any (fun r => !r.finished)
    · rw [replyFinished_waiting_eq env dest sender replies herr hany]
      simp [herr, hany]
    · rw [Bool.not_eq_true] at hany
      rcases h3 : stageFiles env env.tempDir replies with ⟨effs, sigs⟩ | ⟨effs, msg⟩
      · by_cases hkey : env.keyLoadOk
        · rcases h5 : verifySigs env sigs with veffs | ⟨veffs, msg⟩ | veffs
          · rcases h6 : installFiles env env.tempDir dest replies with ieffs | ⟨ieffs, msg⟩
            · rw [replyFinished_success_eq env dest sender replies effs veffs ieffs sigs
                herr hany h3 hkey h5 h6]
              simp [herr, hany]
            · rw [replyFinished_installFail_eq env dest sender replies effs veffs ieffs
                sigs msg herr hany h3 hkey h5 h6]
              simp [showErrorResult, herr, hany]
          · rw [replyFinished_verifyFail_eq env dest sender replies effs veffs sigs msg
              herr hany h3 hkey h5]
            simp [showErrorResult, herr, hany]
          · rw [replyFinished_verifySilent_eq env dest sender replies effs veffs sigs
              herr hany h3 hkey h5]
            simp [herr, hany]
        · rw [Bool.not_eq_true] at hkey
          rw [replyFinished_keyFail_eq env dest sender replies effs sigs herr hany h3 hkey]
          simp [showErrorResult, herr, hany]
      · rw [replyFinished_stageFail_eq env dest sender replies effs msg herr hany h3]
        simp [showErrorResult, herr, hany]

/-- Claim C6: resolution is a total function of the version producing exactly
the three FileSpecs blob, blob plus the signature suffix, and
libspotify.so.8, in that order, each with URL base ++ version ++ "/" ++
filename, and the signature suffix is the fixed string ".sha1". -/
theorem C6_resolver_fixed_specs (baseUrl version : String) :
    resolve baseUrl version =
      [⟨baseUrl ++ version ++ "/" ++ "blob", "blob"⟩,
       ⟨baseUrl ++ version ++ "/" ++ ("blob" ++ kSignatureSuffix),
         "blob" ++ kSignatureSuffix⟩,
       ⟨baseUrl ++ version ++ "/" ++ "libspotify.so.8", "libspotify.so.8"⟩] ∧
    (resolve baseUrl version).length = 3 ∧ kSignatureSuffix = ".sha1" := by
  exact ⟨rfl, rfl, rfl⟩

theorem replyProgress_foldl_aux (rs : List Reply) (a b : Nat) :
    rs.foldl (fun (pt : Nat × Nat) r =>
        (pt.1 + r.bytesAvailable, pt.2 + r.contentLength.getD 0)) (a, b)
      = (a + (rs.map Reply.bytesAvailable).sum,
         b + (rs.map (fun r => r.contentLength.getD 0)).sum) := by
  induction rs generalizing a b with
  | nil => simp
  | cons r rs ih => simp [ih, Nat.add_assoc]

/-- Claim C9: the reported progress pair is the sum of `bytesAvailable` over
the whole batch paired with the sum of the parsed Content-Length headers,
an absent header counting as 0, recomputed from the reply list alone. -/
theorem C9_progress_is_raw_sums (replies : List Reply) :
    replyProgress replies =
      ((replies.map Reply.bytesAvailable).sum,
       (replies.map (fun r => r.contentLength.getD 0)).sum) := by
  have h := replyProgress_foldl_aux replies 0 0
  simpa [replyProgress] using h

theorem installOk_complete (env : Env) (temp dest : String) :
    ∀ (rs : List Reply) (ieffs : List Effect),
      installFiles env temp dest rs = .ok ieffs →
      ∀ r ∈ rs, qEndsWith (lastSection r.urlPath) kSignatureSuffix = false →
        Effect.move (temp ++ "/" ++ lastSection r.urlPath)
          (dest ++ "/" ++ lastSection r.urlPath) ∈ ieffs := by
  intro rs
  induction rs with
  | nil => intro ieffs h r hr; simp at hr
  | cons x rs ih =>
    intro ieffs h r hr hns
    simp only [installFiles] at h
    by_cases h1 : qEndsWith (lastSection x.urlPath) kSignatureSuffix
    · rw [if_pos h1] at h
      rcases List.mem_cons.mp hr with rfl | hr2
      · rw [h1] at hns; simp at hns
      · exact ih ieffs h r hr2 hns
    · rw [if_neg h1] at h
      by_cases h2 : env.renameOk (temp ++ "/" ++ lastSection x.urlPath)
          (dest ++ "/" ++ lastSection x.urlPath)
      · rw [if_pos h2] at h
        rcases hi : installFiles env temp dest rs with effs2 | ⟨effs2, m⟩ <;> rw [hi] at h
        · injection h with h
          subst h
          rcases List.mem_cons.mp hr with rfl | hr2
          · exact List.mem_cons_self _ _
          · exact List.mem_cons_of_mem _ (ih effs2 hi r hr2 hns)
        · exact absurd h (by simp)
      · rw [if_neg h2] at h
        exact absurd h (by simp)

/-- Claim C7: on a fully successful attempt every reply whose filename does
not end in the signature suffix is moved from the staging directory to
`dest/filename`, exactly one success report is delivered, and every move in
the trace is such a non-signature move — so no signature file is ever moved
into the destination. -/
theorem C7_success_moves_nonsignature_files (env : Env) (dest : String) (sender : Reply)
    (replies : List Reply) (effs veffs ieffs : List Effect) (sigs : List String)
    (h1 : sender.error = false) (h2 : replies.any (fun r => !r.finished) = false)
    (h3 : stageFiles env env.tempDir replies = .ok effs sigs)
    (h4 : env.keyLoadOk = true) (h5 : verifySigs env sigs = .ok veffs)
    (h6 : installFiles env env.tempDir dest replies = .ok ieffs) :
    (replyFinished env dest sender replies).reports = [Report.success] ∧
    (∀ r ∈ replies, qEndsWith (lastSection r.urlPath) kSignatureSuffix = false →
      Effect.move (env.tempDir ++ "/" ++ lastSection r.urlPath)
          (dest ++ "/" ++ lastSection r.urlPath)
        ∈ (replyFinished env dest sender replies).effects) ∧
    (∀ src dst, Effect.move src dst ∈ (replyFinished env dest sender replies).effects →
      ∃ r ∈ replies, qEndsWith (lastSection r.urlPath) kSignatureSuffix = false ∧
        src = env.tempDir ++ "/" ++ lastSection r.urlPath ∧
        dst = dest ++ "/" ++ lastSection r.urlPath) := by
  rw [replyFinished_success_eq env dest sender replies effs veffs ieffs sigs h1 h2 h3 h4
    h5 h6]
  refine ⟨rfl, ?_, ?_⟩
  · intro r hr hns
    have hm := installOk_complete env env.tempDir dest replies ieffs h6 r hr hns
    simp [List.mem_cons, List.mem_append, hm]
  · intro src dst hmem
    rcases List.mem_cons.mp hmem with h | hmem
    · exact absurd h (by simp)
    rcases List.mem_append.mp hmem with hsv | hmem
    · rcases List.mem_append.mp hsv with h | h
      · obtain ⟨p, d, heq⟩ :=
          stageEffs_shape env env.tempDir replies _ (by rw [h3]; exact h)
        exact absurd heq (by simp)
      · obtain ⟨a, s, heq⟩ := verifyEffs_shape env sigs _ (by rw [h5]; exact h)
        exact absurd heq (by simp)
    rcases List.mem_cons.mp hmem with h | hmem
    · exact absurd h (by simp)
    rcases List.mem_append.mp hmem with h | h
    · obtain ⟨r, hr, hns, heq⟩ :=
        installEffs_shape env env.tempDir dest replies _ (by rw [h6]; exact h)
      injection heq with hsrc hdst
      exact ⟨r, hr, hns, hsrc, hdst⟩
    · exact absurd (List.mem_singleton.mp h) (by simp)

/-- Witness for C7: the three-file batch succeeds, both non-signature files
are moved, and the signature file is not. -/
theorem C7_witness :
    (stageFiles wEnvGood wEnvGood.tempDir wBatch
        = .ok [Effect.stageWrite "T/blob" 0x7755 [1, 2],
               Effect.stageWrite "T/blob.sha1" 0x7755 [9],
               Effect.stageWrite "T/libspotify.so.8" 0x7755 [3]] ["T/blob.sha1"] ∧
      verifySigs wEnvGood ["T/blob.sha1"]
        = .ok [Effect.verifyCheck "T/blob" "T/blob.sha1"] ∧
      installFiles wEnvGood wEnvGood.tempDir "dest" wBatch
        = .ok [Effect.move "T/blob" "dest/blob",
               Effect.move "T/libspotify.so.8" "dest/libspotify.so.8"]) ∧
    ((replyFinished wEnvGood "dest" wBlobReply wBatch).reports = [Report.success] ∧
      Effect.move "T/blob" "dest/blob"
        ∈ (replyFinished wEnvGood "dest" wBlobReply wBatch).effects ∧
      Effect.move "T/libspotify.so.8" "dest/libspotify.so.8"
        ∈ (replyFinished wEnvGood "dest" wBlobReply wBatch).effects) := by
  refine ⟨⟨by decide, by decide, by decide⟩, ?_⟩
  have h := C7_success_moves_nonsignature_files wEnvGood "dest" wBlobReply wBatch
    [Effect.stageWrite "T/blob" 0x7755 [1, 2],
     Effect.stageWrite "T/blob.sha1" 0x7755 [9],
     Effect.stageWrite "T/libspotify.so.8" 0x7755 [3]]
    [Effect.verifyCheck "T/blob" "T/blob.sha1"]
    [Effect.move "T/blob" "dest/blob",
     Effect.move "T/libspotify.so.8" "dest/libspotify.so.8"]
    ["T/blob.sha1"]
    (by decide) (by decide) (by decide) (by decide) (by decide) (by decide)
  exact ⟨h.1, h.2.1 wBlobReply (by decide) (by decide),
    h.2.1 wLibReply (by decide) (by decide)⟩

theorem movesOf_append (a b : List Effect) :
    movesOf (a ++ b) = movesOf a ++ movesOf b := by
  simp [movesOf, List.filterMap_append]

theorem movesOf_stageEffs (env : Env) (temp : String) (rs : List Reply) :
    movesOf (stageEffs (stageFiles env temp rs)) = [] := by
  rw [movesOf, List.filterMap_eq_nil_iff]
  intro e he
  obtain ⟨p, d, rfl⟩ := stageEffs_shape env temp rs e he
  rfl

theorem movesOf_verifyEffs (env : Env) (sigs : List String) :
    movesOf (verifyEffs (verifySigs env sigs)) = [] := by
  rw [movesOf, List.filterMap_eq_nil_iff]
  intro e he
  obtain ⟨a, s, rfl⟩ := verifyEffs_shape env sigs e he
  rfl

theorem movesOf_map_move {α : Type} (f g : α → String) (l : List α) :
    movesOf (l.map (fun y => Effect.move (f y) (g y))) = l.map (fun y => (f y, g y)) := by
  induction l with
  | nil => rfl
  | cons x l ih =>
    simp only [List.map_cons, movesOf, List.filterMap_cons] at ih ⊢
    rw [ih]

theorem installFail_at (env : Env) (temp dest : String) (x : Reply) :
    ∀ l1 l2 : List Reply,
      (∀ y ∈ l1, qEndsWith (lastSection y.urlPath) kSignatureSuffix = false →
        env.renameOk (temp ++ "/" ++ lastSection y.urlPath)
          (dest ++ "/" ++ lastSection y.urlPath) = true) →
      qEndsWith (lastSection x.urlPath) kSignatureSuffix = false →
      env.renameOk (temp ++ "/" ++ lastSection x.urlPath)
          (dest ++ "/" ++ lastSection x.urlPath) = false →
      installFiles env temp dest (l1 ++ x :: l2) =
        .fail ((l1.filter
              (fun y => !(qEndsWith (lastSection y.urlPath) kSignatureSuffix))).map
            (fun y => Effect.move (temp ++ "/" ++ lastSection y.urlPath)
              (dest ++ "/" ++ lastSection y.urlPath)))
          ("Writing file failed: " ++ (dest ++ "/" ++ lastSection x.urlPath)) := by
  intro l1
  induction l1 with
  | nil =>
    intro l2 hok hx hfail
    simp only [List.nil_append, installFiles, hx, hfail]
    simp
  | cons y l1 ih =>
    intro l2 hok hx hfail
    simp only [List.cons_append, installFiles, List.append_eq]
    by_cases hy : qEndsWith (lastSection y.urlPath) kSignatureSuffix
    · rw [if_pos hy]
      rw [ih l2 (fun z hz => hok z (List.mem_cons_of_mem _ hz)) hx hfail]
      simp [List.filter_cons, hy]
    · rw [if_neg hy]
      have hr := hok y (List.mem_cons_self _ _) (Bool.eq_false_iff.mpr hy)
      rw [hr]
      simp only [if_pos rfl]
      rw [ih l2 (fun z hz => hok z (List.mem_cons_of_mem _ hz)) hx hfail]
      simp [List.filter_cons, hy]

/-- Claim C8: when a rename into the destination fails mid-loop, the run
aborts with exactly one failure report naming the failing destination path,
and the moves actually performed are exactly those of the non-signature
files strictly before the failing one — prior moves are kept (no rollback)
and nothing after the failing file is moved. -/
theorem C8_move_failure_no_rollback (env : Env) (dest : String) (sender : Reply)
    (l1 l2 : List Reply) (x : Reply) (effs veffs : List Effect) (sigs : List String)
    (h1 : sender.error = false)
    (h2 : (l1 ++ x :: l2).any (fun r => !r.finished) = false)
    (h3 : stageFiles env env.tempDir (l1 ++ x :: l2) = .ok effs sigs)
    (h4 : env.keyLoadOk = true) (h5 : verifySigs env sigs = .ok veffs)
    (hok : ∀ y ∈ l1, qEndsWith (lastSection y.urlPath) kSignatureSuffix = false →
      env.renameOk (env.tempDir ++ "/" ++ lastSection y.urlPath)
        (dest ++ "/" ++ lastSection y.urlPath) = true)
    (hx : qEndsWith (lastSection x.urlPath) kSignatureSuffix = false)
    (hfail : env.renameOk (env.tempDir ++ "/" ++ lastSection x.urlPath)
        (dest ++ "/" ++ lastSection x.urlPath) = false) :
    (replyFinished env dest sender (l1 ++ x :: l2)).reports
      = [Report.failure ("Writing file failed: "
          ++ (dest ++ "/" ++ lastSection x.urlPath))] ∧
    movesOf (replyFinished env dest sender (l1 ++ x :: l2)).effects
      = (l1.filter
            (fun y => !(qEndsWith (lastSection y.urlPath) kSignatureSuffix))).map
          (fun y => (env.tempDir ++ "/" ++ lastSection y.urlPath,
                     dest ++ "/" ++ lastSection y.urlPath)) := by
  have h6 := installFail_at env env.tempDir dest x l1 l2 hok hx hfail
  rw [replyFinished_installFail_eq env dest sender (l1 ++ x :: l2) effs veffs _ sigs _
    h1 h2 h3 h4 h5 h6]
  refine ⟨rfl, ?_⟩
  have hms := movesOf_stageEffs env env.tempDir (l1 ++ x :: l2)
  rw [h3] at hms; simp only [stageEffs] at hms
  have hmv := movesOf_verifyEffs env sigs
  rw [h5] at hmv; simp only [verifyEffs] at hmv
  show movesOf (Effect.makeTempDir env.tempDir ::
      (effs ++ veffs ++ Effect.mkpath dest :: _)) = _
  have hcons1 : ∀ l : List Effect,
      movesOf (Effect.makeTempDir env.tempDir :: l) = movesOf l := fun _ => rfl
  have hcons2 : ∀ l : List Effect,
      movesOf (Effect.mkpath dest :: l) = movesOf l := fun _ => rfl
  rw [hcons1, movesOf_append, movesOf_append, hms, hmv, hcons2, movesOf_map_move]
  simp

/-- The benign environment, but renaming into `dest/libspotify.so.8`
fails. -/
def wEnvRenameFail : Env :=
  { wEnvGood with renameOk := fun _ d => !(d == "dest/libspotify.so.8") }

/-- Witness for C8: in the three-file batch the last rename fails; the blob
move persists and nothing else is moved. -/
theorem C8_witness :
    (stageFiles wEnvRenameFail wEnvRenameFail.tempDir wBatch
        = .ok [Effect.stageWrite "T/blob" 0x7755 [1, 2],
               Effect.stageWrite "T/blob.sha1" 0x7755 [9],
               Effect.stageWrite "T/libspotify.so.8" 0x7755 [3]] ["T/blob.sha1"] ∧
      verifySigs wEnvRenameFail ["T/blob.sha1"]
        = .ok [Effect.verifyCheck "T/blob" "T/blob.sha1"]) ∧
    ((replyFinished wEnvRenameFail "dest" wBlobReply wBatch).reports
        = [Report.failure "Writing file failed: dest/libspotify.so.8"] ∧
      movesOf (replyFinished wEnvRenameFail "dest" wBlobReply wBatch).effects
        = [("T/blob", "dest/blob")]) := by
  refine ⟨⟨by decide, by decide⟩, ?_⟩
  have h := C8_move_failure_no_rollback wEnvRenameFail "dest" wBlobReply
    [wBlobReply, wSigReply] [] wLibReply
    [Effect.stageWrite "T/blob" 0x7755 [1, 2],
     Effect.stageWrite "T/blob.sha1" 0x7755 [9],
     Effect.stageWrite "T/libspotify.so.8" 0x7755 [3]]
    [Effect.verifyCheck "T/blob" "T/blob.sha1"] ["T/blob.sha1"]
    (by decide) (by decide) (by decide) (by decide) (by decide) (by decide) (by decide)
    (by decide)
  exact ⟨h.1, h.2⟩

/-- Spec-side comparison definition (from the spec's words, not the
source): strip the signature suffix when and only when it is a trailing
suffix of the path. -/
def suffixStripped (s pat : String) : String :=
  if pat.data.isSuffixOf s.data then
    (s.data.take (s.data.length - pat.data.length)).asString
  else s

theorem findFromAux_some (pat s : List Char) :
    ∀ (fuel i j : Nat), findFromAux pat s i fuel = some j →
      pat.length + j ≤ s.length ∧ i ≤ j ∧ pat.isPrefixOf (s.drop j) = true := by
  intro fuel
  induction fuel with
  | zero => intro i j h; simp [findFromAux] at h
  | succ fuel ih =>
    intro i j h
    simp only [findFromAux] at h
    by_cases hle : pat.length + i ≤ s.length
    · rw [if_pos hle] at h
      by_cases hpre : pat.isPrefixOf (s.drop i)
      · rw [if_pos hpre] at h
        injection h with h
        subst h
        exact ⟨hle, Nat.le_refl _, hpre⟩
      · rw [if_neg hpre] at h
        obtain ⟨hb, hij, hp⟩ := ih (i + 1) j h
        exact ⟨hb, by omega, hp⟩
    · rw [if_neg hle] at h
      exact absurd h (by simp)

theorem findFrom_none_of_short (pat s : List Char) (i : Nat)
    (h : s.length < pat.length + i) : findFrom pat s i = none := by
  unfold findFrom
  cases hfuel : s.length + 1 - i with
  | zero => simp [findFromAux]
  | succ fuel =>
    simp only [findFromAux]
    rw [if_neg (by omega)]

theorem qremoveAux_stop (pat : List Char) (fuel : Nat) (s : List Char) (i : Nat)
    (h : findFrom pat s i = none) : qremoveAux pat fuel s i = s := by
  cases fuel with
  | zero => rfl
  | succ fuel => simp only [qremoveAux, h]

/-- Claim C10: `filename.remove(kSignatureSuffix)` removes occurrences of
the suffix anywhere in the path, not only a trailing one.  When the first
(hence only) occurrence is the trailing suffix the result is exactly the
suffix-stripped path; a path with an interior occurrence yields a result
different from plain suffix-stripping. -/
theorem C10_remove_vs_suffix_strip :
    (∀ s : List Char,
      findFrom kSignatureSuffix.data s 0
          = some (s.length - kSignatureSuffix.data.length) →
      s = s.take (s.length - kSignatureSuffix.data.length) ++ kSignatureSuffix.data ∧
      qremoveL s kSignatureSuffix.data
        = s.take (s.length - kSignatureSuffix.data.length)) ∧
    (qremoveStr "/tmp/blob.sha1.x.sha1" kSignatureSuffix = "/tmp/blob.x" ∧
     suffixStripped "/tmp/blob.sha1.x.sha1" kSignatureSuffix = "/tmp/blob.sha1.x" ∧
     qremoveStr "/tmp/blob.sha1.x.sha1" kSignatureSuffix
       ≠ suffixStripped "/tmp/blob.sha1.x.sha1" kSignatureSuffix) := by
  constructor
  · intro s hfind
    have hplen : kSignatureSuffix.data.length = 5 := by decide
    rw [hplen] at hfind
    have hfind2 := hfind
    unfold findFrom at hfind2
    obtain ⟨hb, _, hpre⟩ :=
      findFromAux_some kSignatureSuffix.data s (s.length + 1 - 0) 0 (s.length - 5) hfind2
    rw [hplen] at hb
    have h5 : 5 ≤ s.length := by omega
    have hpre2 : kSignatureSuffix.data <+: s.drop (s.length - 5) := by
      rw [← List.isPrefixOf_iff_prefix]
      exact hpre
    have hlendrop : (s.drop (s.length - 5)).length = 5 := by
      rw [List.length_drop]
      omega
    have hdropj : s.drop (s.length - 5) = kSignatureSuffix.data :=
      (hpre2.eq_of_length (by rw [hlendrop, hplen])).symm
    have hsplit : s = s.take (s.length - 5) ++ kSignatureSuffix.data := by
      conv_lhs => rw [← List.take_append_drop (s.length - 5) s]
      rw [hdropj]
    refine ⟨by rw [hplen]; exact hsplit, ?_⟩
    rw [hplen]
    have hne : kSignatureSuffix.data.isEmpty = false := by decide
    rw [qremoveL, hne]
    simp only [Bool.false_eq_true, if_false]
    have hfuel : s.length + 1 = s.length + 1 := rfl
    simp only [qremoveAux]
    rw [hfind]
    dsimp only
    have hdroplen : s.drop (s.length - 5 + kSignatureSuffix.data.length) = [] := by
      rw [hplen]
      rw [show s.length - 5 + 5 = s.length by omega]
      exact List.drop_length _
    rw [hdroplen, List.append_nil]
    apply qremoveAux_stop
    apply findFrom_none_of_short
    rw [hplen, List.length_take]
    omega
  · exact ⟨by decide, by decide, by decide⟩

/-- Witness for C10: a signature path whose only `.sha1` occurrence is the
trailing suffix. -/
theorem C10_witness :
    findFrom kSignatureSuffix.data "T/blob.sha1".data 0
        = some ("T/blob.sha1".data.length - kSignatureSuffix.data.length) ∧
    "T/blob.sha1".data
        = "T/blob.sha1".data.take
            ("T/blob.sha1".data.length - kSignatureSuffix.data.length)
          ++ kSignatureSuffix.data ∧
    qremoveL "T/blob.sha1".data kSignatureSuffix.data
      = "T/blob.sha1".data.take
          ("T/blob.sha1".data.length - kSignatureSuffix.data.length) := by
  have h := C10_remove_vs_suffix_strip.1 "T/blob.sha1".data (by decide)
  exact ⟨by decide, h.1, h.2⟩

end SpotifyBlob
